import Mathlib

/-!
Verification of the Signal-Protocol repository's key layer and
ratchet/session core against its specification.

Byte strings are modelled as `List Nat` (each entry a byte value).
External cryptographic libraries used by the code (PyNaCl's Ed25519
signing/verification, HMAC-SHA-256, HKDF and the symmetric cipher)
are not part of the repository; they are modelled as explicit
function parameters (`Ed25519`, `RatchetPrims`) so that every
repository-level definition below stays a faithful translation of
the repository code (or, where the module is absent from the
sources, of the specification's words).
-/

set_option maxRecDepth 16384

/-- Byte strings: each entry is one byte value. -/
abbrev Bytes := List Nat

/-- Well-formed byte string: every entry fits in one byte. -/
def BytesWF (b : Bytes) : Prop := ∀ x ∈ b, x < 256

instance (b : Bytes) : Decidable (BytesWF b) := by
  unfold BytesWF; infer_instance

instance {ε α : Type} [DecidableEq ε] [DecidableEq α] : DecidableEq (Except ε α)
  | .error e, .error f =>
      if h : e = f then .isTrue (by subst h; rfl)
      else .isFalse (by intro hc; injection hc; contradiction)
  | .error _, .ok _ => .isFalse (by intro hc; exact Except.noConfusion hc)
  | .ok _, .error _ => .isFalse (by intro hc; exact Except.noConfusion hc)
  | .ok a, .ok b =>
      if h : a = b then .isTrue (by subst h; rfl)
      else .isFalse (by intro hc; injection hc; contradiction)

/-- Error taxonomy of the spec (§7).  `invalidKeyLength` models the
`ValueError` raised by the key constructors; `valueError` models other
`ValueError`s raised by the Python runtime (e.g. `bytes.fromhex` on
malformed hex). -/
inductive SignalError where
  | invalidKeyLength
  | valueError
  | malformedMessage
  | authenticationFailed
  | outOfOrderMessage
  | counterOverflow
deriving Repr, DecidableEq

/-- From `base_key.py`, `BaseKey`: holds a 32-byte public key. -/
structure BaseKey where
  public_key : Bytes
deriving Repr, DecidableEq

/-- From `base_key.py`, `BaseKey.__init__`: raises
`ValueError("Public key must be 32 bytes")` unless the key is exactly
32 bytes long; modelled as `Except`. -/
def BaseKey.init (public_key : Bytes) : Except SignalError BaseKey :=
  if public_key.length ≠ 32 then .error .invalidKeyLength
  else .ok ⟨public_key⟩

/-- From `base_key.py`, `BaseKeyPair`: a 32-byte public and private key. -/
structure BaseKeyPair where
  public_key : Bytes
  private_key : Bytes
deriving Repr, DecidableEq

/-- From `base_key.py`, `BaseKeyPair.__init__`: checks the public key
length, then the private key length, raising `ValueError` on either. -/
def BaseKeyPair.init (public_key private_key : Bytes) : Except SignalError BaseKeyPair :=
  if public_key.length ≠ 32 then .error .invalidKeyLength
  else if private_key.length ≠ 32 then .error .invalidKeyLength
  else .ok ⟨public_key, private_key⟩

/-- The byte-level mutation performed by
`clamp_curve25519_private_key` in `base_key.py`:
`key_array[0] &= 0xF8; key_array[31] &= 0x7F; key_array[31] |= 0x40`. -/
def clampBytes (key : Bytes) : Bytes :=
  let a1 := key.set 0 ((key.getD 0 0) &&& 0xF8)
  a1.set 31 (((a1.getD 31 0) &&& 0x7F) ||| 0x40)

/-- From `base_key.py`, `clamp_curve25519_private_key`: length check,
then the three clamping bit operations. -/
def clamp_curve25519_private_key (key : Bytes) : Except SignalError Bytes :=
  if key.length ≠ 32 then .error .invalidKeyLength
  else .ok (clampBytes key)

/-- From `base_key.py`, `generate_key_pair`: PyNaCl generates a fresh
32-byte private key (modelled as the parameter `raw`), it is clamped,
and the public key is regenerated from the clamped private key via
`crypto_scalarmult_base` (modelled as the parameter `scalarmultBase`). -/
def generate_key_pair (scalarmultBase : Bytes → Bytes) (raw : Bytes) :
    Except SignalError (Bytes × Bytes) := do
  let priv ← clamp_curve25519_private_key raw
  .ok (scalarmultBase priv, priv)

/-- Model of the external PyNaCl Ed25519 layer used by
`identity_key.py` (not repository code): `sign` is
`SigningKey(seed).sign(msg).signature`, `vkOf` is
`bytes(SigningKey(seed).verify_key)`, and `verifyExc` is
`VerifyKey(vk).verify(msg, sig)`, which raises an exception (modelled
as `Except.error`) on any malformed key, malformed signature or
verification failure. -/
structure Ed25519 where
  sign : Bytes → Bytes → Bytes
  vkOf : Bytes → Bytes
  verifyExc : Bytes → Bytes → Bytes → Except Unit Unit

/-- From `identity_key.py`, `IdentityKeyPair`: a Curve25519 key pair
plus a cached Ed25519 verify key. -/
structure IdentityKeyPair where
  public_key : Bytes
  private_key : Bytes
  ed25519_verify_key : Bytes
deriving Repr, DecidableEq

/-- From `identity_key.py`, `IdentityKeyPair.__init__`: the
`BaseKeyPair` length checks run on the public and private key; the
Ed25519 verify key is stored verbatim when supplied (no validation of
any kind), and derived from the private key via
`nacl.signing.SigningKey(private_key).verify_key` otherwise. -/
def IdentityKeyPair.init (E : Ed25519) (public_key private_key : Bytes)
    (ed25519_verify_key : Option Bytes) : Except SignalError IdentityKeyPair := do
  let base ← BaseKeyPair.init public_key private_key
  match ed25519_verify_key with
  | some vk => .ok ⟨base.public_key, base.private_key, vk⟩
  | none => .ok ⟨base.public_key, base.private_key, E.vkOf base.private_key⟩

/-- From `identity_key.py`, `xeddsa_sign`: signs with the Ed25519
signing key derived from the Curve25519 private key and returns the
64-byte signature part. -/
def xeddsa_sign (E : Ed25519) (identity_key_pair : IdentityKeyPair) (message : Bytes) : Bytes :=
  E.sign identity_key_pair.private_key message

/-- From `identity_key.py`, `xeddsa_verify`: runs the PyNaCl
verification inside `try: ... return True except Exception: return
False`, so every library exception becomes the result `False`. -/
def xeddsa_verify (E : Ed25519) (ed25519_verify_key message signature : Bytes) : Bool :=
  match E.verifyExc ed25519_verify_key message signature with
  | .ok _ => true
  | .error _ => false

/-- One lowercase hexadecimal digit character (codepoints 48-57 for
0-9, then 97-102 for a-f), as produced by Python's `bytes.hex()`. -/
def hexDigit (n : Nat) : Char :=
  if n < 10 then Char.ofNat (48 + n) else Char.ofNat (87 + n)

/-- One byte rendered as two lowercase hex characters (`bytes.hex()`). -/
def byteToHex (b : Nat) : List Char := [hexDigit (b / 16), hexDigit (b % 16)]

/-- `bytes.hex()` over a whole byte string. -/
def bytesToHex : Bytes → List Char
  | [] => []
  | b :: rest => byteToHex b ++ bytesToHex rest

/-- Numeric value of one hex character, by codepoint range
(`bytes.fromhex` accepts both cases). -/
def hexVal (c : Char) : Option Nat :=
  if 48 ≤ c.toNat ∧ c.toNat ≤ 57 then some (c.toNat - 48)
  else if 97 ≤ c.toNat ∧ c.toNat ≤ 102 then some (c.toNat - 87)
  else if 65 ≤ c.toNat ∧ c.toNat ≤ 70 then some (c.toNat - 55)
  else none

/-- `bytes.fromhex`: pairs of hex characters; fails on odd length or a
non-hex character. -/
def hexToBytes : List Char → Option Bytes
  | [] => some []
  | [_] => none
  | c1 :: c2 :: rest => do
      let hi ← hexVal c1
      let lo ← hexVal c2
      let bs ← hexToBytes rest
      some ((hi * 16 + lo) :: bs)

/-- The dictionary produced by `serialize_identity_key_pair`: hex
strings under keys `public_key`, `private_key` and (optionally, for
backward compatibility on the reading side) `ed25519_verify_key`. -/
structure SerializedIKP where
  public_key : List Char
  private_key : List Char
  ed25519_verify_key : Option (List Char)
deriving Repr, DecidableEq

/-- From `identity_key.py`, `serialize_identity_key_pair`: stores the
hex encoding of all three components. -/
def serialize_identity_key_pair (key_pair : IdentityKeyPair) : SerializedIKP :=
  { public_key := bytesToHex key_pair.public_key
    private_key := bytesToHex key_pair.private_key
    ed25519_verify_key := some (bytesToHex key_pair.ed25519_verify_key) }

/-- From `identity_key.py`, `deserialize_identity_key_pair`: decodes
the hex fields (`bytes.fromhex` raising `ValueError` on bad hex is
modelled as an error) and rebuilds the pair through
`IdentityKeyPair.__init__`; when the `ed25519_verify_key` entry is
absent, `None` is passed and the constructor derives it. -/
def deserialize_identity_key_pair (E : Ed25519) (data : SerializedIKP) :
    Except SignalError IdentityKeyPair := do
  let pub ← match hexToBytes data.public_key with
    | some b => Except.ok b
    | none => Except.error SignalError.valueError
  let priv ← match hexToBytes data.private_key with
    | some b => Except.ok b
    | none => Except.error SignalError.valueError
  let evk ← match data.ed25519_verify_key with
    | some h =>
        match hexToBytes h with
        | some b => Except.ok (some b)
        | none => Except.error SignalError.valueError
    | none => Except.ok none
  IdentityKeyPair.init E pub priv evk

/-- Model of the external symmetric-cryptography primitives consumed
by the ratchet core (HMAC-SHA-256, HKDF-Expand and the keyed IV-based
symmetric cipher); these live in external libraries, not in the
repository, so they are passed as parameters. -/
structure RatchetPrims where
  hmac : Bytes → Bytes → Bytes
  hkdfExpand : Bytes → Bytes → Nat → Bytes
  cipherEnc : Bytes → Bytes → Bytes → Bytes
  cipherDec : Bytes → Bytes → Bytes → Bytes

/-- Modelled from the spec: the `signal_protocol.sessions` and
`signal_protocol.messages` modules are absent from the sources (only
their tests are present); §4.1: HMAC-SHA-256 keyed by the previous
root key over the shared secret, expanded (HKDF-Expand semantics)
into 64 bytes split into two 32-byte halves — first the new root key,
then the initial chain key. -/
def derive_root_key_and_chain_key (P : RatchetPrims) (shared_secret previous_root_key : Bytes) :
    Bytes × Bytes :=
  let okm := P.hkdfExpand (P.hmac previous_root_key shared_secret) [] 64
  (okm.take 32, okm.drop 32)

/-- Modelled from the spec (§4.1 `advance_chain`, module absent from
the sources): the chain key is used as an HMAC key over the
single-byte label `0x02` for the next chain key and `0x01` for the
message seed. -/
def advance_chain (P : RatchetPrims) (chain_key : Bytes) : Bytes × Bytes :=
  (P.hmac chain_key [2], P.hmac chain_key [1])

/-- Fixed info string for the per-message HKDF expansion (§4.1). -/
def MESSAGE_KEY_INFO : Bytes := [77, 101, 115, 115, 97, 103, 101, 75, 101, 121, 115]

/-- Modelled from the spec (§4.1 `derive_message_keys`, module absent
from the sources): HKDF-Expand over the message seed with a fixed
info string, sliced into a 32-byte encryption key, a 32-byte MAC key
and a 16-byte IV. -/
def derive_message_keys (P : RatchetPrims) (message_seed : Bytes) : Bytes × Bytes × Bytes :=
  let okm := P.hkdfExpand message_seed MESSAGE_KEY_INFO 80
  (okm.take 32, (okm.drop 32).take 32, (okm.drop 64).take 16)

/-- Modelled from the spec (§3, `signal_protocol.sessions` module
absent from the sources): the mutable per-conversation session
state. -/
structure SessionRecord where
  session_id : String
  local_identity_key : Bytes
  remote_identity_key : Bytes
  root_key : Bytes
  chain_key_send : Bytes
  chain_key_receive : Bytes
  send_chain_counter : Nat
  receive_chain_counter : Nat
deriving Repr, DecidableEq

/-- Modelled from the spec (§3): a fresh session starts with both
chain counters at 0, as in the test fixtures which construct
`SessionRecord` without counter arguments. -/
def SessionRecord.create (session_id : String)
    (local_identity_key remote_identity_key root_key chain_key_send chain_key_receive : Bytes) :
    SessionRecord :=
  ⟨session_id, local_identity_key, remote_identity_key, root_key,
   chain_key_send, chain_key_receive, 0, 0⟩

/-- Modelled from the spec (§3, `signal_protocol.messages` module
absent from the sources): the immutable wire envelope. -/
structure SignalMessage where
  message_version : Nat
  sender_ratchet_key : Bytes
  counter : Nat
  previous_counter : Nat
  ciphertext : Bytes
  mac : Bytes
deriving Repr, DecidableEq

/-- The envelope version produced and recognized by this engine (the
tests use version 3). -/
def MESSAGE_VERSION : Nat := 3

/-- Counters are unsigned 32-bit integers (§3). -/
def U32_LIMIT : Nat := 4294967296

/-- Big-endian 4-byte encoding of a 32-bit counter. -/
def toBE4 (n : Nat) : Bytes :=
  [n / 16777216 % 256, n / 65536 % 256, n / 256 % 256, n % 256]

/-- Big-endian 4-byte decoding. -/
def fromBE4 (b : Bytes) : Nat :=
  ((b.getD 0 0 * 256 + b.getD 1 0) * 256 + b.getD 2 0) * 256 + b.getD 3 0

/-- Header bytes of the envelope:
`[version:1][sender_ratchet_key:32][counter:4][previous_counter:4]` (§4.4). -/
def mkHeader (version : Nat) (sender_ratchet_key : Bytes) (counter previous_counter : Nat) :
    Bytes :=
  version :: (sender_ratchet_key ++ toBE4 counter ++ toBE4 previous_counter)

def headerBytes (m : SignalMessage) : Bytes :=
  mkHeader m.message_version m.sender_ratchet_key m.counter m.previous_counter

/-- Modelled from the spec (§4.4 `encode`, module absent from the
sources): fixed-width big-endian layout
`[version:1][sender_ratchet_key:32][counter:4][previous_counter:4][ciphertext_len:4][ciphertext:N][mac:32]`. -/
def SignalMessage.serialize (m : SignalMessage) : Bytes :=
  headerBytes m ++ toBE4 m.ciphertext.length ++ m.ciphertext ++ m.mac

/-- Modelled from the spec (§4.4 `decode`, module absent from the
sources): fails with `MalformedMessage` if the input is shorter than
the fixed-field minimum (77 bytes), if the version is not one the
engine recognizes, or if `ciphertext_len` does not match the bytes
remaining before the trailing 32-byte MAC. -/
def SignalMessage.deserialize (b : Bytes) : Except SignalError SignalMessage :=
  if b.length < 77 then .error .malformedMessage
  else
    let version := b.getD 0 0
    let clen := fromBE4 ((b.drop 41).take 4)
    if version ≠ MESSAGE_VERSION then .error .malformedMessage
    else if b.length ≠ 77 + clen then .error .malformedMessage
    else .ok
      { message_version := version
        sender_ratchet_key := (b.drop 1).take 32
        counter := fromBE4 ((b.drop 33).take 4)
        previous_counter := fromBE4 ((b.drop 37).take 4)
        ciphertext := (b.drop 45).take clen
        mac := b.drop (45 + clen) }

/-- Modelled from the spec (§4.5 `encrypt_message`, module absent from
the sources): advance the send chain, derive message keys, encrypt,
MAC over associated data (both parties' identity public keys, sender
first, plus the header fields) followed by the ciphertext, and update
the session (counter +1, chain key advanced) atomically; a counter
that would leave the 32-bit range is the fatal `CounterOverflow`
(§7), leaving the session untouched.  The pair returned is (result,
updated session) — the session component models the in-place
mutation. -/
def encrypt_message (P : RatchetPrims) (plaintext : Bytes) (session : SessionRecord)
    (local_identity : IdentityKeyPair) :
    Except SignalError SignalMessage × SessionRecord :=
  if session.send_chain_counter + 1 ≥ U32_LIMIT then (.error .counterOverflow, session)
  else
    let step := advance_chain P session.chain_key_send
    let keys := derive_message_keys P step.2
    let counter := session.send_chain_counter
    let ciphertext := P.cipherEnc keys.1 keys.2.2 plaintext
    let header := mkHeader MESSAGE_VERSION local_identity.public_key counter (counter - 1)
    let ad := session.local_identity_key ++ session.remote_identity_key ++ header
    let mac := P.hmac keys.2.1 (ad ++ ciphertext)
    (.ok ⟨MESSAGE_VERSION, local_identity.public_key, counter, counter - 1, ciphertext, mac⟩,
     { session with chain_key_send := step.1, send_chain_counter := counter + 1 })

/-- The MAC the receiver recomputes over an incoming message (§4.5
step 4, with the sender's identity key first in the associated
data). -/
def expected_receive_mac (P : RatchetPrims) (session : SessionRecord) (message : SignalMessage) :
    Bytes :=
  let step := advance_chain P session.chain_key_receive
  let keys := derive_message_keys P step.2
  let ad := session.remote_identity_key ++ session.local_identity_key ++ headerBytes message
  P.hmac keys.2.1 (ad ++ message.ciphertext)

/-- Modelled from the spec (§4.5 `decrypt_message`, module absent from
the sources): the MAC is validated before the receive chain counter
is touched (`AuthenticationFailed` advances nothing); a counter
mismatch is the fatal `OutOfOrderMessage`; otherwise the receive
chain advances by exactly one step and the plaintext is returned.
The returned session component models the in-place mutation; every
error branch returns the session unchanged (atomic update or none). -/
def decrypt_message (P : RatchetPrims) (message : SignalMessage) (session : SessionRecord)
    (_local_identity : IdentityKeyPair) :
    Except SignalError Bytes × SessionRecord :=
  let step := advance_chain P session.chain_key_receive
  let keys := derive_message_keys P step.2
  if message.mac ≠ expected_receive_mac P session message then
    (.error .authenticationFailed, session)
  else if message.counter ≠ session.receive_chain_counter then
    (.error .outOfOrderMessage, session)
  else if session.receive_chain_counter + 1 ≥ U32_LIMIT then
    (.error .counterOverflow, session)
  else
    (.ok (P.cipherDec keys.1 keys.2.2 message.ciphertext),
     { session with chain_key_receive := step.1,
                    receive_chain_counter := session.receive_chain_counter + 1 })

/-- A concrete Ed25519-shaped scheme used to instantiate witnesses: a
signature is the seed (length-prefixed) followed by the message, the
verify key marks the seed with a leading 0, and verification checks
the signature against the unique seed behind the verify key. -/
def toySign (sk m : Bytes) : Bytes := sk.length :: (sk ++ m)

def toyVkOf (sk : Bytes) : Bytes := 0 :: sk

def toyVerify (vk m s : Bytes) : Except Unit Unit :=
  match vk with
  | 0 :: sk => if s = toySign sk m then .ok () else .error ()
  | _ => .error ()

def toyEd : Ed25519 := ⟨toySign, toyVkOf, toyVerify⟩

/-- A concrete instantiation of the symmetric primitives used for
witnesses: the MAC is the (length-prefixed) key followed by the data,
the KDF output records its inputs, and the cipher is the identity. -/
def toyHmac (k d : Bytes) : Bytes := k.length :: (k ++ d)

def toyPrims : RatchetPrims :=
  ⟨toyHmac, fun seed info n => n :: (seed ++ info), fun _ _ p => p, fun _ _ c => c⟩

def demoSessionA : SessionRecord := ⟨"a-to-b", [1], [2], [3], [4], [5], 0, 0⟩

def demoSessionB : SessionRecord := ⟨"b-to-a", [2], [1], [3], [6], [4], 0, 0⟩

def demoIdA : IdentityKeyPair := ⟨[7], [8], [9]⟩

def demoIdB : IdentityKeyPair := ⟨[10], [11], [12]⟩

theorem byte_clamp0_low : ∀ b : Fin 256, (b.val &&& 0xF8) &&& 7 = 0 := by decide

theorem byte_clamp31_high : ∀ b : Fin 256, ((b.val &&& 0x7F) ||| 0x40) &&& 0x80 = 0 := by decide

theorem byte_clamp31_bit6 : ∀ b : Fin 256, ((b.val &&& 0x7F) ||| 0x40) &&& 0x40 = 0x40 := by
  decide

theorem byte_clamp0_idem : ∀ b : Fin 256, (b.val &&& 0xF8) &&& 0xF8 = b.val &&& 0xF8 := by
  decide

theorem byte_clamp31_idem : ∀ b : Fin 256,
    (((b.val &&& 0x7F) ||| 0x40) &&& 0x7F) ||| 0x40 = (b.val &&& 0x7F) ||| 0x40 := by decide

theorem getD_lt_of_wf {k : Bytes} {i : Nat} (hw : BytesWF k) (hi : i < k.length) :
    k.getD i 0 < 256 := by
  rw [List.getD_eq_getElem k 0 hi]
  exact hw _ (List.getElem_mem hi)

theorem clampBytes_length {k : Bytes} (hl : k.length = 32) : (clampBytes k).length = 32 := by
  simp [clampBytes, hl]

theorem clampBytes_eq (k : Bytes) :
    clampBytes k =
      (k.set 0 (k.getD 0 0 &&& 0xF8)).set 31 ((k.getD 31 0 &&& 0x7F) ||| 0x40) := by
  unfold clampBytes
  simp [List.getD_eq_getElem?_getD, List.getElem?_set]

theorem clampBytes_getD0 (k : Bytes) (hl : k.length = 32) :
    (clampBytes k).getD 0 0 = k.getD 0 0 &&& 0xF8 := by
  rw [clampBytes_eq]
  simp [List.getD_eq_getElem?_getD, List.getElem?_set, hl]

theorem clampBytes_getD31 (k : Bytes) (hl : k.length = 32) :
    (clampBytes k).getD 31 0 = (k.getD 31 0 &&& 0x7F) ||| 0x40 := by
  rw [clampBytes_eq]
  simp [List.getD_eq_getElem?_getD, List.getElem?_set, hl]

theorem clampBytes_idem (k : Bytes) (hw : BytesWF k) (hl : k.length = 32) :
    clampBytes (clampBytes k) = clampBytes k := by
  have h0 : k.getD 0 0 < 256 := getD_lt_of_wf hw (by omega)
  have h31 : k.getD 31 0 < 256 := getD_lt_of_wf hw (by omega)
  have hgd0 : (clampBytes k).getD 0 0 &&& 0xF8 = k.getD 0 0 &&& 0xF8 := by
    rw [clampBytes_getD0 k hl]; exact byte_clamp0_idem ⟨_, h0⟩
  have hgd31 : ((clampBytes k).getD 31 0 &&& 0x7F) ||| 0x40 =
      (k.getD 31 0 &&& 0x7F) ||| 0x40 := by
    rw [clampBytes_getD31 k hl]; exact byte_clamp31_idem ⟨_, h31⟩
  rw [clampBytes_eq (clampBytes k), hgd0, hgd31]
  have hc0 : (clampBytes k).set 0 (k.getD 0 0 &&& 0xF8) = clampBytes k := by
    rw [clampBytes_eq k,
        List.set_comm ((k.getD 31 0 &&& 0x7F) ||| 0x40) (k.getD 0 0 &&& 0xF8)
          (k.set 0 (k.getD 0 0 &&& 0xF8)) (by decide : (31 : Nat) ≠ 0),
        List.set_set]
  rw [hc0, clampBytes_eq k, List.set_set, ← clampBytes_eq k]

/-- C8: clamping a 32-byte key clears the low 3 bits of byte 0,
clears the high bit and sets the second-highest bit of byte 31,
returns a 32-byte value, is idempotent, and the private key returned
by `generate_key_pair` is exactly the clamped raw key (hence satisfies
the same bit pattern). -/
theorem claim_C8 (k : Bytes) (f : Bytes → Bytes) (hw : BytesWF k) (hl : k.length = 32) :
    clamp_curve25519_private_key k = .ok (clampBytes k)
    ∧ (clampBytes k).length = 32
    ∧ (clampBytes k).getD 0 0 &&& 7 = 0
    ∧ (clampBytes k).getD 31 0 &&& 128 = 0
    ∧ (clampBytes k).getD 31 0 &&& 64 = 64
    ∧ clamp_curve25519_private_key (clampBytes k) = .ok (clampBytes k)
    ∧ generate_key_pair f k = .ok (f (clampBytes k), clampBytes k) := by
  have h0 : k.getD 0 0 < 256 := getD_lt_of_wf hw (by omega)
  have h31 : k.getD 31 0 < 256 := getD_lt_of_wf hw (by omega)
  refine ⟨?_, clampBytes_length hl, ?_, ?_, ?_, ?_, ?_⟩
  · simp [clamp_curve25519_private_key, hl]
  · rw [clampBytes_getD0 k hl]; exact byte_clamp0_low ⟨_, h0⟩
  · rw [clampBytes_getD31 k hl]; exact byte_clamp31_high ⟨_, h31⟩
  · rw [clampBytes_getD31 k hl]; exact byte_clamp31_bit6 ⟨_, h31⟩
  · simp [clamp_curve25519_private_key, clampBytes_length hl, clampBytes_idem k hw hl]
  · simp only [generate_key_pair, clamp_curve25519_private_key, hl]
    rfl

theorem claim_C8_witness :
    clamp_curve25519_private_key (List.replicate 32 255) =
      .ok (clampBytes (List.replicate 32 255))
    ∧ (clampBytes (List.replicate 32 255)).length = 32
    ∧ (clampBytes (List.replicate 32 255)).getD 0 0 &&& 7 = 0
    ∧ (clampBytes (List.replicate 32 255)).getD 31 0 &&& 128 = 0
    ∧ (clampBytes (List.replicate 32 255)).getD 31 0 &&& 64 = 64
    ∧ clamp_curve25519_private_key (clampBytes (List.replicate 32 255)) =
      .ok (clampBytes (List.replicate 32 255))
    ∧ generate_key_pair id (List.replicate 32 255) =
      .ok (id (clampBytes (List.replicate 32 255)), clampBytes (List.replicate 32 255)) :=
  claim_C8 (List.replicate 32 255) id (by decide) (by decide)

theorem verify_true_iff (E : Ed25519) (k m s : Bytes) :
    xeddsa_verify E k m s = true ↔ E.verifyExc k m s = .ok () := by
  unfold xeddsa_verify
  cases h : E.verifyExc k m s with
  | ok u => cases u; simp
  | error e => simp

/-- C5: `xeddsa_verify` is a total boolean function of its three byte
string inputs — the PyNaCl call is wrapped in a catch-all handler, so
it returns `true` exactly when the library verification succeeds and
`false` whenever the library raises (malformed key, malformed
signature, or failed verification). -/
theorem claim_C5 (E : Ed25519) (k m s : Bytes) :
    (xeddsa_verify E k m s = true ∨ xeddsa_verify E k m s = false)
    ∧ (xeddsa_verify E k m s = true ↔ E.verifyExc k m s = .ok ()) :=
  ⟨match xeddsa_verify E k m s with
    | true => Or.inl rfl
    | false => Or.inr rfl,
   verify_true_iff E k m s⟩

theorem toy_complete : ∀ sk m, toyEd.verifyExc (toyEd.vkOf sk) m (toyEd.sign sk m) = .ok () := by
  intro sk m
  simp [toyEd, toyVerify, toyVkOf]

theorem toy_sound : ∀ vk m s, toyEd.verifyExc vk m s = .ok () →
    ∃ sk, vk = toyEd.vkOf sk ∧ s = toyEd.sign sk m := by
  intro vk m s h
  show ∃ sk, vk = toyVkOf sk ∧ s = toySign sk m
  cases vk with
  | nil => simp [toyEd, toyVerify] at h
  | cons a t =>
    cases a with
    | zero =>
      simp only [toyEd, toyVerify] at h
      split at h
      · exact ⟨t, rfl, by assumption⟩
      · exact absurd h (by simp)
    | succ n => simp [toyEd, toyVerify] at h

theorem toy_vk_inj : ∀ a b, toyEd.vkOf a = toyEd.vkOf b → a = b := by
  intro a b h
  simpa [toyEd, toyVkOf] using h

theorem toy_sign_inj : ∀ a b m m2, toyEd.sign a m = toyEd.sign b m2 → a = b ∧ m = m2 := by
  intro a b m m2 h
  simp only [toyEd, toySign, List.cons.injEq] at h
  exact List.append_inj h.2 h.1

/-- C6: assuming the external Ed25519 scheme is complete (honest
signatures verify), sound and deterministic (a verifying triple is
the honest one, verify keys and signatures determine the seed and
message), the repository's wiring gives: `xeddsa_verify` of
`xeddsa_sign` under the matching cached verify key is `true`, and it
is `false` under a different keypair's verify key, for a different
message, or for any signature (zeroed or garbage) other than the
honest one. -/
theorem claim_C6 (E : Ed25519)
    (hcomplete : ∀ sk m, E.verifyExc (E.vkOf sk) m (E.sign sk m) = .ok ())
    (hsound : ∀ vk m s, E.verifyExc vk m s = .ok () → ∃ sk, vk = E.vkOf sk ∧ s = E.sign sk m)
    (hvk : ∀ a b, E.vkOf a = E.vkOf b → a = b)
    (hsig : ∀ a b m m2, E.sign a m = E.sign b m2 → a = b ∧ m = m2)
    (kp kp2 : IdentityKeyPair) (m m2 s : Bytes)
    (hk : kp.ed25519_verify_key = E.vkOf kp.private_key)
    (hk2 : kp2.ed25519_verify_key = E.vkOf kp2.private_key) :
    xeddsa_verify E kp.ed25519_verify_key m (xeddsa_sign E kp m) = true
    ∧ (kp2.private_key ≠ kp.private_key →
        xeddsa_verify E kp2.ed25519_verify_key m (xeddsa_sign E kp m) = false)
    ∧ (m2 ≠ m → xeddsa_verify E kp.ed25519_verify_key m2 (xeddsa_sign E kp m) = false)
    ∧ (s ≠ xeddsa_sign E kp m → xeddsa_verify E kp.ed25519_verify_key m s = false) := by
  refine ⟨?_, ?_, ?_, ?_⟩
  · rw [hk]
    exact (verify_true_iff E _ m _).mpr (hcomplete kp.private_key m)
  · intro hne
    by_contra hb
    rw [Bool.not_eq_false, verify_true_iff, hk2] at hb
    obtain ⟨t, hvkt, hsigt⟩ := hsound _ _ _ hb
    obtain ⟨hab, _⟩ := hsig _ _ _ _ hsigt
    exact hne (hvk _ _ hvkt ▸ hab).symm
  · intro hne
    by_contra hb
    rw [Bool.not_eq_false, verify_true_iff, hk] at hb
    obtain ⟨t, hvkt, hsigt⟩ := hsound _ _ _ hb
    exact hne (hsig _ _ _ _ hsigt).2.symm
  · intro hne
    by_contra hb
    rw [Bool.not_eq_false, verify_true_iff, hk] at hb
    obtain ⟨t, hvkt, hsigt⟩ := hsound _ _ _ hb
    have ht : t = kp.private_key := (hvk _ _ hvkt).symm
    exact hne (by rw [hsigt, ht]; rfl)

theorem claim_C6_witness :
    xeddsa_verify toyEd (⟨[0], [1], toyEd.vkOf [1]⟩ : IdentityKeyPair).ed25519_verify_key [5]
      (xeddsa_sign toyEd ⟨[0], [1], toyEd.vkOf [1]⟩ [5]) = true
    ∧ xeddsa_verify toyEd (⟨[3], [2], toyEd.vkOf [2]⟩ : IdentityKeyPair).ed25519_verify_key [5]
      (xeddsa_sign toyEd ⟨[0], [1], toyEd.vkOf [1]⟩ [5]) = false
    ∧ xeddsa_verify toyEd (⟨[0], [1], toyEd.vkOf [1]⟩ : IdentityKeyPair).ed25519_verify_key [6]
      (xeddsa_sign toyEd ⟨[0], [1], toyEd.vkOf [1]⟩ [5]) = false
    ∧ xeddsa_verify toyEd (⟨[0], [1], toyEd.vkOf [1]⟩ : IdentityKeyPair).ed25519_verify_key [5]
      (List.replicate 64 0) = false := by
  have h := claim_C6 toyEd toy_complete toy_sound toy_vk_inj toy_sign_inj
    ⟨[0], [1], toyEd.vkOf [1]⟩ ⟨[3], [2], toyEd.vkOf [2]⟩ [5] [6] (List.replicate 64 0) rfl rfl
  exact ⟨h.1, h.2.1 (by decide), h.2.2.1 (by decide), h.2.2.2 (by decide)⟩

/-- C7: `BaseKey` and `BaseKeyPair` construction fails with
`InvalidKeyLength` (constructing nothing) whenever any key argument
is not exactly 32 bytes, and succeeds exactly when every key argument
is 32 bytes. -/
theorem claim_C7 (b p s : Bytes) :
    (b.length ≠ 32 → BaseKey.init b = .error .invalidKeyLength)
    ∧ (b.length = 32 → BaseKey.init b = .ok ⟨b⟩)
    ∧ (p.length ≠ 32 ∨ s.length ≠ 32 → BaseKeyPair.init p s = .error .invalidKeyLength)
    ∧ (p.length = 32 → s.length = 32 → BaseKeyPair.init p s = .ok ⟨p, s⟩) := by
  refine ⟨fun h => ?_, fun h => ?_, fun h => ?_, fun hp hs => ?_⟩
  · simp [BaseKey.init, h]
  · simp [BaseKey.init, h]
  · rcases h with h | h
    · simp [BaseKeyPair.init, h]
    · by_cases hp : p.length = 32 <;> simp [BaseKeyPair.init, hp, h]
  · simp [BaseKeyPair.init, hp, hs]

theorem claim_C7_witness :
    BaseKey.init (List.replicate 33 0) = .error .invalidKeyLength
    ∧ BaseKey.init (List.replicate 32 0) = .ok ⟨List.replicate 32 0⟩
    ∧ BaseKeyPair.init (List.replicate 32 0) (List.replicate 31 0) =
        .error .invalidKeyLength
    ∧ BaseKeyPair.init (List.replicate 32 0) (List.replicate 32 0) =
        .ok ⟨List.replicate 32 0, List.replicate 32 0⟩ :=
  ⟨(claim_C7 (List.replicate 33 0) [] []).1 (by decide),
   (claim_C7 (List.replicate 32 0) [] []).2.1 (by decide),
   (claim_C7 [] (List.replicate 32 0) (List.replicate 31 0)).2.2.1 (Or.inr (by decide)),
   (claim_C7 [] (List.replicate 32 0) (List.replicate 32 0)).2.2.2 (by decide) (by decide)⟩

/-- C10: `IdentityKeyPair.__init__` with a valid 32-byte key pair and
an explicitly supplied Ed25519 verify key of any length stores that
verify key verbatim, unchecked — no length check and no consistency
check against the private key. -/
theorem claim_C10 (E : Ed25519) (pub priv v : Bytes)
    (hp : pub.length = 32) (hs : priv.length = 32) :
    IdentityKeyPair.init E pub priv (some v) = .ok ⟨pub, priv, v⟩
    ∧ (⟨pub, priv, v⟩ : IdentityKeyPair).ed25519_verify_key = v := by
  constructor
  · unfold IdentityKeyPair.init BaseKeyPair.init
    rw [if_neg (by omega), if_neg (by omega)]
    rfl
  · rfl

theorem claim_C10_witness :
    IdentityKeyPair.init toyEd (List.replicate 32 0) (List.replicate 32 1) (some [1, 2, 3]) =
      .ok ⟨List.replicate 32 0, List.replicate 32 1, [1, 2, 3]⟩
    ∧ (⟨List.replicate 32 0, List.replicate 32 1, [1, 2, 3]⟩ :
        IdentityKeyPair).ed25519_verify_key = [1, 2, 3] :=
  claim_C10 toyEd (List.replicate 32 0) (List.replicate 32 1) [1, 2, 3]
    (by decide) (by decide)

theorem take_append_len {α : Type} (l r : List α) {n : Nat} (h : l.length = n) :
    (l ++ r).take n = l := by
  subst h; exact List.take_left l r

theorem drop_append_len {α : Type} (l r : List α) {n : Nat} (h : l.length = n) :
    (l ++ r).drop n = r := by
  subst h; exact List.drop_left l r

theorem toBE4_length (n : Nat) : (toBE4 n).length = 4 := rfl

theorem fromBE4_toBE4 {n : Nat} (h : n < U32_LIMIT) : fromBE4 (toBE4 n) = n := by
  unfold U32_LIMIT at h
  simp only [fromBE4, toBE4, List.getD_cons_zero, List.getD_cons_succ]
  omega

theorem serialize_shape (v : Nat) (srk : Bytes) (c p : Nat) (ciph mac : Bytes) :
    SignalMessage.serialize ⟨v, srk, c, p, ciph, mac⟩ =
      v :: (srk ++ (toBE4 c ++ (toBE4 p ++ (toBE4 ciph.length ++ (ciph ++ mac))))) := by
  simp [SignalMessage.serialize, headerBytes, mkHeader, List.append_assoc]

/-- Decoding the encoding recovers every field, for a message whose
version is the recognized one, whose ratchet key and MAC have their
fixed widths, and whose counters and ciphertext length fit the 4-byte
fields. -/
theorem deserialize_serialize (m : SignalMessage)
    (hv : m.message_version = MESSAGE_VERSION)
    (hr : m.sender_ratchet_key.length = 32)
    (hm : m.mac.length = 32)
    (hc : m.counter < U32_LIMIT)
    (hp : m.previous_counter < U32_LIMIT)
    (hcl : m.ciphertext.length < U32_LIMIT) :
    SignalMessage.deserialize m.serialize = .ok m := by
  obtain ⟨v, srk, ctr, prev, ciph, mac⟩ := m
  simp only at hv hr hm hc hp hcl
  subst hv
  rw [serialize_shape]
  have d1 : (MESSAGE_VERSION ::
      (srk ++ (toBE4 ctr ++ (toBE4 prev ++ (toBE4 ciph.length ++ (ciph ++ mac)))))).drop 1 =
      srk ++ (toBE4 ctr ++ (toBE4 prev ++ (toBE4 ciph.length ++ (ciph ++ mac)))) := rfl
  have d33 : (MESSAGE_VERSION ::
      (srk ++ (toBE4 ctr ++ (toBE4 prev ++ (toBE4 ciph.length ++ (ciph ++ mac)))))).drop 33 =
      toBE4 ctr ++ (toBE4 prev ++ (toBE4 ciph.length ++ (ciph ++ mac))) := by
    rw [show (33 : Nat) = 1 + 32 from rfl, ← List.drop_drop, d1]
    exact drop_append_len _ _ hr
  have d37 : (MESSAGE_VERSION ::
      (srk ++ (toBE4 ctr ++ (toBE4 prev ++ (toBE4 ciph.length ++ (ciph ++ mac)))))).drop 37 =
      toBE4 prev ++ (toBE4 ciph.length ++ (ciph ++ mac)) := by
    rw [show (37 : Nat) = 33 + 4 from rfl, ← List.drop_drop, d33]
    exact drop_append_len _ _ (toBE4_length ctr)
  have d41 : (MESSAGE_VERSION ::
      (srk ++ (toBE4 ctr ++ (toBE4 prev ++ (toBE4 ciph.length ++ (ciph ++ mac)))))).drop 41 =
      toBE4 ciph.length ++ (ciph ++ mac) := by
    rw [show (41 : Nat) = 37 + 4 from rfl, ← List.drop_drop, d37]
    exact drop_append_len _ _ (toBE4_length prev)
  have d45 : (MESSAGE_VERSION ::
      (srk ++ (toBE4 ctr ++ (toBE4 prev ++ (toBE4 ciph.length ++ (ciph ++ mac)))))).drop 45 =
      ciph ++ mac := by
    rw [show (45 : Nat) = 41 + 4 from rfl, ← List.drop_drop, d41]
    exact drop_append_len _ _ (toBE4_length ciph.length)
  have hlen : (MESSAGE_VERSION ::
      (srk ++ (toBE4 ctr ++ (toBE4 prev ++ (toBE4 ciph.length ++ (ciph ++ mac)))))).length =
      77 + ciph.length := by
    simp [toBE4, hr, hm]
    omega
  have dmac : (MESSAGE_VERSION ::
      (srk ++ (toBE4 ctr ++ (toBE4 prev ++ (toBE4 ciph.length ++ (ciph ++ mac)))))).drop
      (45 + ciph.length) = mac := by
    rw [← List.drop_drop, d45]
    exact drop_append_len _ _ rfl
  unfold SignalMessage.deserialize
  rw [d41, take_append_len _ _ (toBE4_length ciph.length), fromBE4_toBE4 hcl, hlen]
  rw [if_neg (by omega)]
  simp only [List.getD_cons_zero]
  rw [if_neg (by omega), if_neg (by omega)]
  rw [d1, take_append_len _ _ hr, d33, take_append_len _ _ (toBE4_length ctr),
      fromBE4_toBE4 hc, d37, take_append_len _ _ (toBE4_length prev), fromBE4_toBE4 hp,
      d45, take_append_len _ _ rfl, dmac]

/-- C3 counterexample: a well-formed message whose `message_version`
is 4 (not the version the engine recognizes) does not survive the
round trip — `decode` rejects it as malformed, so the round-trip
identity does not hold for *any* `message_version`. -/
theorem claim_C3_counterexample :
    SignalMessage.deserialize
      (SignalMessage.serialize ⟨4, List.replicate 32 0, 0, 0, [], List.replicate 32 0⟩) =
      .error .malformedMessage
    ∧ SignalMessage.deserialize
      (SignalMessage.serialize ⟨4, List.replicate 32 0, 0, 0, [], List.replicate 32 0⟩) ≠
      .ok ⟨4, List.replicate 32 0, 0, 0, [], List.replicate 32 0⟩ := by
  constructor
  · decide
  · decide

/-- C3 (amended): for every well-formed `SignalMessage` — recognized
`message_version` (3), 32-byte `sender_ratchet_key`, 32-bit `counter`
and `previous_counter`, ciphertext of any length (including zero)
whose length fits the 4-byte length field, 32-byte `mac` —
`decode(encode(m))` returns a message equal to `m` field-for-field. -/
theorem claim_C3 (m : SignalMessage)
    (hv : m.message_version = MESSAGE_VERSION)
    (hr : m.sender_ratchet_key.length = 32)
    (hm : m.mac.length = 32)
    (hc : m.counter < U32_LIMIT)
    (hp : m.previous_counter < U32_LIMIT)
    (hcl : m.ciphertext.length < U32_LIMIT) :
    SignalMessage.deserialize m.serialize = .ok m :=
  deserialize_serialize m hv hr hm hc hp hcl

theorem claim_C3_witness :
    SignalMessage.deserialize
      (SignalMessage.serialize ⟨3, List.replicate 32 7, 5, 4, [], List.replicate 32 9⟩) =
      .ok ⟨3, List.replicate 32 7, 5, 4, [], List.replicate 32 9⟩ :=
  claim_C3 ⟨3, List.replicate 32 7, 5, 4, [], List.replicate 32 9⟩
    (by decide) (by decide) (by decide) (by decide) (by decide) (by decide)

theorem hex_byte_round : ∀ b : Fin 256,
    hexVal (hexDigit (b.val / 16)) = some (b.val / 16)
    ∧ hexVal (hexDigit (b.val % 16)) = some (b.val % 16) := by decide

theorem hexToBytes_bytesToHex {bs : Bytes} (hw : BytesWF bs) :
    hexToBytes (bytesToHex bs) = some bs := by
  induction bs with
  | nil => rfl
  | cons b rest ih =>
    have hb : b < 256 := hw b (List.mem_cons_self b rest)
    have hwr : BytesWF rest := fun x hx => hw x (List.mem_cons_of_mem _ hx)
    show hexToBytes (byteToHex b ++ bytesToHex rest) = some (b :: rest)
    simp only [byteToHex, List.cons_append, List.nil_append]
    simp only [hexToBytes, (hex_byte_round ⟨b, hb⟩).1, (hex_byte_round ⟨b, hb⟩).2, ih hwr]
    have hdm : b / 16 * 16 + b % 16 = b := by omega
    simp [hdm]

/-- C9 counterexample: the claim quantifies over *every* identity key
pair, but the constructor (C10) accepts an arbitrary unchecked verify
key; for a pair whose cached verify key is not the one derived from
its private key, deserializing its serialized dictionary with the
`ed25519_verify_key` entry removed derives a verify key different
from the one serialization stored. -/
theorem claim_C9_counterexample :
    deserialize_identity_key_pair toyEd
      { public_key := bytesToHex (List.replicate 32 0)
        private_key := bytesToHex (List.replicate 32 1)
        ed25519_verify_key := none } =
      .ok ⟨List.replicate 32 0, List.replicate 32 1, toyEd.vkOf (List.replicate 32 1)⟩
    ∧ (serialize_identity_key_pair
        ⟨List.replicate 32 0, List.replicate 32 1, [9, 9]⟩).ed25519_verify_key =
      some (bytesToHex [9, 9])
    ∧ toyEd.vkOf (List.replicate 32 1) ≠ [9, 9] := by
  refine ⟨by decide, by decide, by decide⟩

/-- C9 (amended): serialization followed by deserialization restores
the public key, private key and Ed25519 verify key bytes exactly, for
every identity key pair with valid 32-byte public/private keys; and
for a key pair whose cached verify key is the one derived from its
private key (the only kind `generate_identity_key_pair` or a
no-verify-key construction produces), deserializing with the
`ed25519_verify_key` entry absent derives a verify key equal to the
one serialization would have stored. -/
theorem claim_C9 (E : Ed25519) (kp : IdentityKeyPair)
    (hwp : BytesWF kp.public_key) (hws : BytesWF kp.private_key)
    (hwv : BytesWF kp.ed25519_verify_key)
    (hp : kp.public_key.length = 32) (hs : kp.private_key.length = 32) :
    deserialize_identity_key_pair E (serialize_identity_key_pair kp) = .ok kp
    ∧ (kp.ed25519_verify_key = E.vkOf kp.private_key →
        deserialize_identity_key_pair E
          { serialize_identity_key_pair kp with ed25519_verify_key := none } = .ok kp) := by
  obtain ⟨pub, priv, vk⟩ := kp
  simp only at hwp hws hwv hp hs
  constructor
  · unfold deserialize_identity_key_pair serialize_identity_key_pair
    simp only
    rw [hexToBytes_bytesToHex hwp, hexToBytes_bytesToHex hws, hexToBytes_bytesToHex hwv]
    show IdentityKeyPair.init E pub priv (some vk) = .ok ⟨pub, priv, vk⟩
    unfold IdentityKeyPair.init BaseKeyPair.init
    rw [if_neg (by omega), if_neg (by omega)]
    rfl
  · intro hvk
    unfold deserialize_identity_key_pair serialize_identity_key_pair
    simp only
    rw [hexToBytes_bytesToHex hwp, hexToBytes_bytesToHex hws]
    show IdentityKeyPair.init E pub priv none = .ok ⟨pub, priv, vk⟩
    unfold IdentityKeyPair.init BaseKeyPair.init
    rw [if_neg (by omega), if_neg (by omega)]
    simp only at hvk
    rw [hvk]
    rfl

theorem claim_C9_witness :
    deserialize_identity_key_pair toyEd
      (serialize_identity_key_pair
        ⟨List.replicate 32 0, List.replicate 32 1, toyEd.vkOf (List.replicate 32 1)⟩) =
      .ok ⟨List.replicate 32 0, List.replicate 32 1, toyEd.vkOf (List.replicate 32 1)⟩
    ∧ deserialize_identity_key_pair toyEd
      { serialize_identity_key_pair
          ⟨List.replicate 32 0, List.replicate 32 1, toyEd.vkOf (List.replicate 32 1)⟩ with
        ed25519_verify_key := none } =
      .ok ⟨List.replicate 32 0, List.replicate 32 1, toyEd.vkOf (List.replicate 32 1)⟩ := by
  have h := claim_C9 toyEd
    ⟨List.replicate 32 0, List.replicate 32 1, toyEd.vkOf (List.replicate 32 1)⟩
    (by decide) (by decide) (by decide) (by decide) (by decide)
  exact ⟨h.1, h.2 rfl⟩

/-- C1: mirror-image sessions (A's send chain equals B's receive
chain, counters aligned, identity bindings crossed) round-trip every
plaintext, provided the symmetric cipher parameter is correct
(decryption inverts encryption). -/
theorem claim_C1 (P : RatchetPrims) (p : Bytes) (sa sb : SessionRecord)
    (ida idb : IdentityKeyPair)
    (hcipher : ∀ k iv q, P.cipherDec k iv (P.cipherEnc k iv q) = q)
    (hkey : sa.chain_key_send = sb.chain_key_receive)
    (hctr : sa.send_chain_counter = sb.receive_chain_counter)
    (hid1 : sa.local_identity_key = sb.remote_identity_key)
    (hid2 : sa.remote_identity_key = sb.local_identity_key)
    (hov : sa.send_chain_counter + 1 < U32_LIMIT) :
    ((encrypt_message P p sa ida).1.bind
      fun m2 => (decrypt_message P m2 sb idb).1) = .ok p := by
  rcases sa with ⟨aid, al, ar, ark, acs, acr, asc, arc⟩
  rcases sb with ⟨bid, bl, br, brk, bcs, bcr, bsc, brc⟩
  dsimp only at hkey hctr hid1 hid2 hov
  subst hkey hctr hid1 hid2
  have hb : ¬ (asc + 1 ≥ U32_LIMIT) := by omega
  simp [encrypt_message, decrypt_message, expected_receive_mac, advance_chain,
    derive_message_keys, headerBytes, mkHeader, hb, hcipher, Except.bind]

theorem claim_C1_witness :
    ((encrypt_message toyPrims [42] demoSessionA demoIdA).1.bind
      fun m2 => (decrypt_message toyPrims m2 demoSessionB demoIdB).1) = .ok [42] :=
  claim_C1 toyPrims [42] demoSessionA demoSessionB demoIdA demoIdB
    (fun _ _ _ => rfl) rfl rfl rfl rfl (by decide)

/-- Any message whose MAC does not match the recomputed one is
rejected before any state is touched: the error is
`AuthenticationFailed` and the session comes back unchanged. -/
theorem decrypt_auth_fail (P : RatchetPrims) (m : SignalMessage) (s : SessionRecord)
    (idk : IdentityKeyPair) (h : m.mac ≠ expected_receive_mac P s m) :
    decrypt_message P m s idk = (.error .authenticationFailed, s) := by
  unfold decrypt_message
  rw [if_pos h]

/-- Flip bit `j` of byte `i` of a byte string. -/
def flipBitAt (b : Bytes) (i j : Nat) : Bytes :=
  b.set i ((b.getD i 0) ^^^ (1 <<< j))

theorem xor_shift_ne (x j : Nat) : x ^^^ (1 <<< j) ≠ x := by
  intro h
  have hz : (1 <<< j) = 0 := by
    calc 1 <<< j = x ^^^ (x ^^^ (1 <<< j)) := by
          rw [← Nat.xor_assoc, Nat.xor_self, Nat.zero_xor]
    _ = x ^^^ x := by rw [h]
    _ = 0 := Nat.xor_self x
  have hp : 0 < 1 <<< j := by
    rw [Nat.shiftLeft_eq, Nat.one_mul]
    exact Nat.pos_pow_of_pos j (by omega)
  omega

theorem flipBitAt_ne (b : Bytes) (i j : Nat) (hi : i < b.length) : flipBitAt b i j ≠ b := by
  intro h
  have hgd : (flipBitAt b i j).getD i 0 = (b.getD i 0) ^^^ (1 <<< j) := by
    simp [flipBitAt, List.getD_eq_getElem?_getD, List.getElem?_set, hi]
  rw [h] at hgd
  exact xor_shift_ne (b.getD i 0) j hgd.symm

theorem toy_hmac_inj : ∀ k d d2, d ≠ d2 → toyPrims.hmac k d ≠ toyPrims.hmac k d2 := by
  intro k d d2 hne h
  simp only [toyPrims, toyHmac, List.cons.injEq] at h
  exact hne (List.append_cancel_left h.2)

/-- C2: (a) whenever an incoming message's MAC does not verify,
`decrypt_message` fails with `AuthenticationFailed` and returns the
session unchanged (no chain state advances); (b) flipping any bit of
the `mac` of an honestly encrypted message causes exactly that
failure on the mirror session; (c) so does flipping any bit of the
`ciphertext`, given that the MAC parameter is collision-free on
distinct inputs under the same key. -/
theorem claim_C2 (P : RatchetPrims)
    (hcoll : ∀ k d d2, d ≠ d2 → P.hmac k d ≠ P.hmac k d2) :
    (∀ (m : SignalMessage) (s : SessionRecord) (idk : IdentityKeyPair),
      m.mac ≠ expected_receive_mac P s m →
      decrypt_message P m s idk = (.error .authenticationFailed, s))
    ∧ (∀ (p : Bytes) (sa sb : SessionRecord) (ida idb : IdentityKeyPair)
        (msg : SignalMessage) (i j : Nat),
      (encrypt_message P p sa ida).1 = .ok msg →
      sa.chain_key_send = sb.chain_key_receive →
      sa.local_identity_key = sb.remote_identity_key →
      sa.remote_identity_key = sb.local_identity_key →
      i < msg.mac.length →
      decrypt_message P { msg with mac := flipBitAt msg.mac i j } sb idb =
        (.error .authenticationFailed, sb))
    ∧ (∀ (p : Bytes) (sa sb : SessionRecord) (ida idb : IdentityKeyPair)
        (msg : SignalMessage) (i j : Nat),
      (encrypt_message P p sa ida).1 = .ok msg →
      sa.chain_key_send = sb.chain_key_receive →
      sa.local_identity_key = sb.remote_identity_key →
      sa.remote_identity_key = sb.local_identity_key →
      i < msg.ciphertext.length →
      decrypt_message P { msg with ciphertext := flipBitAt msg.ciphertext i j } sb idb =
        (.error .authenticationFailed, sb)) := by
  refine ⟨fun m s idk h => decrypt_auth_fail P m s idk h, ?_, ?_⟩
  · intro p sa sb ida idb msg i j henc hkey hid1 hid2 hi
    rcases sa with ⟨aid, al, ar, ark, acs, acr, asc, arc⟩
    rcases sb with ⟨bid, bl, br, brk, bcs, bcr, bsc, brc⟩
    dsimp only at hkey hid1 hid2
    subst hkey hid1 hid2
    by_cases hov : asc + 1 ≥ U32_LIMIT
    · exfalso
      unfold encrypt_message at henc
      rw [if_pos hov] at henc
      exact Except.noConfusion henc
    · unfold encrypt_message at henc
      rw [if_neg hov] at henc
      dsimp only at henc
      injection henc with hmsg
      subst hmsg
      apply decrypt_auth_fail
      dsimp only [expected_receive_mac, headerBytes, mkHeader]
      exact fun hcontra => flipBitAt_ne _ i j hi hcontra
  · intro p sa sb ida idb msg i j henc hkey hid1 hid2 hi
    rcases sa with ⟨aid, al, ar, ark, acs, acr, asc, arc⟩
    rcases sb with ⟨bid, bl, br, brk, bcs, bcr, bsc, brc⟩
    dsimp only at hkey hid1 hid2
    subst hkey hid1 hid2
    by_cases hov : asc + 1 ≥ U32_LIMIT
    · exfalso
      unfold encrypt_message at henc
      rw [if_pos hov] at henc
      exact Except.noConfusion henc
    · unfold encrypt_message at henc
      rw [if_neg hov] at henc
      dsimp only at henc
      injection henc with hmsg
      subst hmsg
      apply decrypt_auth_fail
      dsimp only [expected_receive_mac, headerBytes, mkHeader]
      apply hcoll
      intro hcontra
      exact flipBitAt_ne _ i j hi (List.append_cancel_left hcontra).symm

theorem claim_C2_witness :
    decrypt_message toyPrims ⟨3, [7], 0, 0, [42], [9]⟩ demoSessionB demoIdB =
      (.error .authenticationFailed, demoSessionB)
    ∧ decrypt_message toyPrims
        ⟨3, [7], 0, 0, [42], flipBitAt [0, 1, 2, 3, 7, 0, 0, 0, 0, 0, 0, 0, 0, 42] 0 0⟩
        demoSessionB demoIdB = (.error .authenticationFailed, demoSessionB)
    ∧ decrypt_message toyPrims
        ⟨3, [7], 0, 0, flipBitAt [42] 0 0, [0, 1, 2, 3, 7, 0, 0, 0, 0, 0, 0, 0, 0, 42]⟩
        demoSessionB demoIdB = (.error .authenticationFailed, demoSessionB) := by
  have h := claim_C2 toyPrims toy_hmac_inj
  refine ⟨h.1 ⟨3, [7], 0, 0, [42], [9]⟩ demoSessionB demoIdB (by decide), ?_, ?_⟩
  · exact h.2.1 [42] demoSessionA demoSessionB demoIdA demoIdB
      ⟨3, [7], 0, 0, [42], [0, 1, 2, 3, 7, 0, 0, 0, 0, 0, 0, 0, 0, 42]⟩ 0 0
      (by decide) rfl rfl rfl (by decide)
  · exact h.2.2 [42] demoSessionA demoSessionB demoIdA demoIdB
      ⟨3, [7], 0, 0, [42], [0, 1, 2, 3, 7, 0, 0, 0, 0, 0, 0, 0, 0, 42]⟩ 0 0
      (by decide) rfl rfl rfl (by decide)

/-- C4 counterexample: a successful `encrypt_message` changes more
than `send_chain_counter` — the send chain key itself advances (it
must, for forward secrecy), so "no other field of the session
changes" is false. -/
theorem claim_C4_counterexample :
    (encrypt_message toyPrims [] demoSessionA demoIdA).1 =
      .ok ⟨3, [7], 0, 0, [], [0, 1, 2, 3, 7, 0, 0, 0, 0, 0, 0, 0, 0]⟩
    ∧ ((encrypt_message toyPrims [] demoSessionA demoIdA).2).send_chain_counter =
      demoSessionA.send_chain_counter + 1
    ∧ ((encrypt_message toyPrims [] demoSessionA demoIdA).2).chain_key_send ≠
      demoSessionA.chain_key_send := by
  refine ⟨by decide, by decide, by decide⟩

/-- C4 (amended): counters start at 0 in a fresh session; one
successful `encrypt_message` advances `send_chain_counter` by exactly
1 and replaces `chain_key_send` by the advanced chain key, leaving
every other field unchanged; one successful `decrypt_message`
advances `receive_chain_counter` by exactly 1 and replaces
`chain_key_receive` by the advanced chain key, leaving every other
field unchanged; and the counters never decrease under either
operation, whatever its outcome. -/
theorem claim_C4 (P : RatchetPrims) (p : Bytes) (m : SignalMessage) (s : SessionRecord)
    (idk : IdentityKeyPair) (sid : String) (l r rk cs cr : Bytes) :
    (SessionRecord.create sid l r rk cs cr).send_chain_counter = 0
    ∧ (SessionRecord.create sid l r rk cs cr).receive_chain_counter = 0
    ∧ (s.send_chain_counter + 1 < U32_LIMIT →
        (encrypt_message P p s idk).2 =
          { s with chain_key_send := (advance_chain P s.chain_key_send).1,
                   send_chain_counter := s.send_chain_counter + 1 })
    ∧ (∀ pt, (decrypt_message P m s idk).1 = .ok pt →
        (decrypt_message P m s idk).2 =
          { s with chain_key_receive := (advance_chain P s.chain_key_receive).1,
                   receive_chain_counter := s.receive_chain_counter + 1 })
    ∧ s.send_chain_counter ≤ (encrypt_message P p s idk).2.send_chain_counter
    ∧ s.receive_chain_counter ≤ (encrypt_message P p s idk).2.receive_chain_counter
    ∧ s.send_chain_counter ≤ (decrypt_message P m s idk).2.send_chain_counter
    ∧ s.receive_chain_counter ≤ (decrypt_message P m s idk).2.receive_chain_counter := by
  refine ⟨rfl, rfl, ?_, ?_, ?_, ?_, ?_, ?_⟩
  · intro hov
    unfold encrypt_message
    rw [if_neg (by omega)]
  · intro pt h
    by_cases h1 : m.mac ≠ expected_receive_mac P s m
    · rw [decrypt_auth_fail P m s idk h1] at h
      exact absurd h (by simp)
    · by_cases h2 : m.counter ≠ s.receive_chain_counter
      · unfold decrypt_message at h
        rw [if_neg h1, if_pos h2] at h
        exact absurd h (by simp)
      · by_cases h3 : s.receive_chain_counter + 1 ≥ U32_LIMIT
        · unfold decrypt_message at h
          rw [if_neg h1, if_neg h2, if_pos h3] at h
          exact absurd h (by simp)
        · unfold decrypt_message
          rw [if_neg h1, if_neg h2, if_neg h3]
  · unfold encrypt_message
    split
    · exact Nat.le_refl _
    · exact Nat.le_succ _
  · unfold encrypt_message
    split
    · exact Nat.le_refl _
    · exact Nat.le_refl _
  · unfold decrypt_message
    split
    · exact Nat.le_refl _
    · split
      · exact Nat.le_refl _
      · split
        · exact Nat.le_refl _
        · exact Nat.le_refl _
  · unfold decrypt_message
    split
    · exact Nat.le_refl _
    · split
      · exact Nat.le_refl _
      · split
        · exact Nat.le_refl _
        · exact Nat.le_succ _

theorem claim_C4_witness :
    (SessionRecord.create "fresh" [1] [2] [3] [4] [5]).send_chain_counter = 0
    ∧ (SessionRecord.create "fresh" [1] [2] [3] [4] [5]).receive_chain_counter = 0
    ∧ (encrypt_message toyPrims [42] demoSessionB demoIdB).2 =
      { demoSessionB with
          chain_key_send := (advance_chain toyPrims demoSessionB.chain_key_send).1,
          send_chain_counter := demoSessionB.send_chain_counter + 1 }
    ∧ (decrypt_message toyPrims ⟨3, [7], 0, 0, [42], [0, 1, 2, 3, 7, 0, 0, 0, 0, 0, 0, 0, 0, 42]⟩
        demoSessionB demoIdB).2 =
      { demoSessionB with
          chain_key_receive := (advance_chain toyPrims demoSessionB.chain_key_receive).1,
          receive_chain_counter := demoSessionB.receive_chain_counter + 1 }
    ∧ demoSessionB.send_chain_counter ≤
      (encrypt_message toyPrims [42] demoSessionB demoIdB).2.send_chain_counter
    ∧ demoSessionB.receive_chain_counter ≤
      (encrypt_message toyPrims [42] demoSessionB demoIdB).2.receive_chain_counter
    ∧ demoSessionB.send_chain_counter ≤
      (decrypt_message toyPrims ⟨3, [7], 0, 0, [42], [0, 1, 2, 3, 7, 0, 0, 0, 0, 0, 0, 0, 0, 42]⟩
        demoSessionB demoIdB).2.send_chain_counter
    ∧ demoSessionB.receive_chain_counter ≤
      (decrypt_message toyPrims ⟨3, [7], 0, 0, [42], [0, 1, 2, 3, 7, 0, 0, 0, 0, 0, 0, 0, 0, 42]⟩
        demoSessionB demoIdB).2.receive_chain_counter := by
  have h := claim_C4 toyPrims [42]
    ⟨3, [7], 0, 0, [42], [0, 1, 2, 3, 7, 0, 0, 0, 0, 0, 0, 0, 0, 42]⟩
    demoSessionB demoIdB "fresh" [1] [2] [3] [4] [5]
  exact ⟨h.1, h.2.1, h.2.2.1 (by decide), h.2.2.2.1 [42] (by decide), h.2.2.2.2.1,
    h.2.2.2.2.2.1, h.2.2.2.2.2.2.1, h.2.2.2.2.2.2.2⟩

section SanityChecks

example : ((encrypt_message toyPrims [42] demoSessionA demoIdA).1.bind
    fun m => (decrypt_message toyPrims m demoSessionB demoIdB).1) = Except.ok [42] := by decide

example : ((encrypt_message toyPrims [] demoSessionA demoIdA).2).send_chain_counter = 1 := by
  decide

example : (SignalMessage.deserialize
    (SignalMessage.serialize ⟨3, List.replicate 32 7, 1, 0, [1, 2], List.replicate 32 9⟩)) =
    .ok ⟨3, List.replicate 32 7, 1, 0, [1, 2], List.replicate 32 9⟩ := by decide

example : BaseKey.init (List.replicate 31 0) = .error .invalidKeyLength := by decide
example : BaseKey.init (List.replicate 32 0) = .ok ⟨List.replicate 32 0⟩ := by decide
example : clampBytes (List.replicate 32 255) =
    (248 :: List.replicate 30 255) ++ [127] := by decide
example : bytesToHex [0, 255, 161] = ['0', '0', 'f', 'f', 'a', '1'] := by decide
example : hexToBytes ['0', '0', 'f', 'f', 'a', '1'] = some [0, 255, 161] := by decide

end SanityChecks
